import Mathlib

/-!
Verification of the wines-recommender backend (shallow embedding).

Numbers are modelled by `ℚ`; Python dicts over string keys are modelled by
association lists built in insertion order (all builders in this code insert
pairwise-distinct keys, so first-match lookup agrees with Python's dict).
External collaborators (the Vertex AI vector index, the embedding model
endpoint, the OCR service) are modelled as explicit inputs: a neighbor query
result is passed to the orchestrators as a list of (id, distance) pairs.
-/

namespace WinesRec

abbrev WineId := String

abbrev Embedding := List ℚ

/-- A Python dict keyed by strings, as an association list in insertion order. -/
abbrev ScoreMap := List (WineId × ℚ)

/-- Dict lookup (first match; keys produced by this code are pairwise distinct). -/
def dictFind {β : Type} : String → List (String × β) → Option β
  | _, [] => none
  | i, (j, v) :: rest => if j = i then some v else dictFind i rest

/-- Python `min(distances)` over a non-empty list (0 is never used: the
callers guard on non-emptiness exactly as the source does). -/
def pyMin : List ℚ → ℚ
  | [] => 0
  | [d] => d
  | d :: e :: rest => min d (pyMin (e :: rest))

/-- Python `max(distances)` over a non-empty list. -/
def pyMax : List ℚ → ℚ
  | [] => 0
  | [d] => d
  | d :: e :: rest => max d (pyMax (e :: rest))

/-- The inline min-max normalization in `app.py`'s `get_wine_neighbors`
(`src/app.py` lines 109-125): if there are no distances the scores dict is
empty; otherwise with `min_dist`/`max_dist` over the distances, when
`max_dist > min_dist` each wine gets `(dist - min_dist) / (max_dist - min_dist)`,
and otherwise every wine gets `1.0`. -/
def minmax_normalize (wine_neighbors : List WineId) (distances : List ℚ) : ScoreMap :=
  match distances with
  | [] => []
  | _ :: _ =>
    let min_dist := pyMin distances
    let max_dist := pyMax distances
    if min_dist < max_dist then
      (wine_neighbors.zip distances).map (fun p => (p.1, (p.2 - min_dist) / (max_dist - min_dist)))
    else
      wine_neighbors.map (fun i => (i, 1))

/-- `WineService.normalize_distances` (`src/services/wine_service.py` lines
61-114): despite its name it performs no normalization; it returns each wine
id mapped to its raw dot-product distance (empty distances give an empty
dict). The min/max/mean it computes are only logged. -/
def normalize_distances (wine_ids : List WineId) (distances : List ℚ) : ScoreMap :=
  match distances with
  | [] => []
  | _ :: _ => wine_ids.zip distances

/-- `WineService.find_similar_wines` after the external index response:
collects the ids and distances in order and applies `normalize_distances`.
The neighbor query itself is external; its result is the argument. -/
def find_similar_wines (neighbors : List (WineId × ℚ)) : List WineId × ScoreMap :=
  let wine_neighbors := neighbors.map Prod.fst
  let distances := neighbors.map Prod.snd
  (wine_neighbors, normalize_distances wine_neighbors distances)

/-- `WineService.get_wine_recommendations`: generates a user embedding via the
external model service (not modelled: the neighbor list already reflects the
query with that embedding) and delegates to `find_similar_wines`. -/
def get_wine_recommendations (neighbors : List (WineId × ℚ)) : List WineId × ScoreMap :=
  find_similar_wines neighbors

/-- Spec-modelled (policy 2, not present anywhere in the source): linear
dot-product remap, score = (1 + dot_product) / 2. -/
def linear_dot_remap (dot_product : ℚ) : ℚ := (1 + dot_product) / 2

theorem zip_fst_snd {α β : Type} :
    ∀ (l : List (α × β)), (l.map Prod.fst).zip (l.map Prod.snd) = l
  | [] => rfl
  | p :: rest => by simp [zip_fst_snd rest]

theorem dictFind_eq_of_mem {β : Type} :
    ∀ {l : List (String × β)}, (l.map Prod.fst).Nodup →
    ∀ {i : String} {v : β}, (i, v) ∈ l → dictFind i l = some v := by
  intro l
  induction l with
  | nil => intro _ i v hv; cases hv
  | cons p rest ih =>
    intro hnd i v hv
    obtain ⟨j, w⟩ := p
    simp only [List.map_cons, List.nodup_cons] at hnd
    rcases List.mem_cons.mp hv with heq | hmem
    · cases heq
      simp [dictFind]
    · have hne : j ≠ i := by
        intro hji
        subst hji
        exact hnd.1 (List.mem_map_of_mem Prod.fst hmem)
      simp only [dictFind, if_neg hne]
      exact ih hnd.2 hmem

theorem pyMin_le : ∀ {ds : List ℚ} {d : ℚ}, d ∈ ds → pyMin ds ≤ d := by
  intro ds
  induction ds with
  | nil => intro d hd; cases hd
  | cons a rest ih =>
    intro d hd
    cases rest with
    | nil =>
      rcases List.mem_cons.mp hd with h | h
      · simp [pyMin, h]
      · cases h
    | cons b rest2 =>
      rcases List.mem_cons.mp hd with h | h
      · subst h; simp [pyMin]
      · exact le_trans (by simp [pyMin]) (ih h)

theorem le_pyMax : ∀ {ds : List ℚ} {d : ℚ}, d ∈ ds → d ≤ pyMax ds := by
  intro ds
  induction ds with
  | nil => intro d hd; cases hd
  | cons a rest ih =>
    intro d hd
    cases rest with
    | nil =>
      rcases List.mem_cons.mp hd with h | h
      · simp [pyMax, h]
      · cases h
    | cons b rest2 =>
      rcases List.mem_cons.mp hd with h | h
      · subst h; simp [pyMax]
      · exact le_trans (ih h) (by simp [pyMax])

theorem minmax_keys_nodup {ids : List WineId} {ds : List ℚ}
    (hlen : ids.length = ds.length) (hnd : ids.Nodup) (f : ℚ → ℚ) :
    (((ids.zip ds).map (fun p => (p.1, f p.2))).map Prod.fst).Nodup := by
  have hfst : ((ids.zip ds).map (fun p => (p.1, f p.2))).map Prod.fst = ids := by
    rw [List.map_map]
    have : (Prod.fst ∘ fun p : WineId × ℚ => (p.1, f p.2)) = Prod.fst := by
      funext p; rfl
    rw [this, List.map_fst_zip ids ds (le_of_eq hlen)]
  rw [hfst]; exact hnd

/-- C1: the min-max normalization policy (policy 1), as implemented inline in
`app.py`'s `get_wine_neighbors`: empty input gives an empty mapping; when
`max_d > min_d` every id's score is `(distance - min_d) / (max_d - min_d)`,
the pair at `min_d` scores 0, the pair at `max_d` scores 1, and all scores lie
in [0,1]; when `max_d == min_d` (including the single-pair case) every id's
score is exactly 1. -/
theorem minmax_policy1_spec (ids : List WineId) (ds : List ℚ)
    (hlen : ids.length = ds.length) (hnd : ids.Nodup) :
    (ds = [] → minmax_normalize ids ds = [])
    ∧ (∀ i d, (i, d) ∈ ids.zip ds → pyMin ds < pyMax ds →
        dictFind i (minmax_normalize ids ds)
          = some ((d - pyMin ds) / (pyMax ds - pyMin ds)))
    ∧ (∀ i d, (i, d) ∈ ids.zip ds → pyMin ds < pyMax ds → d = pyMin ds →
        dictFind i (minmax_normalize ids ds) = some 0)
    ∧ (∀ i d, (i, d) ∈ ids.zip ds → pyMin ds < pyMax ds → d = pyMax ds →
        dictFind i (minmax_normalize ids ds) = some 1)
    ∧ (∀ i s, (i, s) ∈ minmax_normalize ids ds → 0 ≤ s ∧ s ≤ 1)
    ∧ (ds ≠ [] → pyMin ds = pyMax ds →
        ∀ i s, (i, s) ∈ minmax_normalize ids ds → s = 1) := by
  cases ds with
  | nil =>
    refine ⟨fun _ => rfl, ?_, ?_, ?_, ?_, ?_⟩
    · intro i d hmem; simp at hmem
    · intro i d hmem; simp at hmem
    · intro i d hmem; simp at hmem
    · intro i s hmem; simp [minmax_normalize] at hmem
    · intro h; exact absurd rfl h
  | cons d0 ds0 =>
    set m := pyMin (d0 :: ds0) with hm
    set M := pyMax (d0 :: ds0) with hM
    by_cases hlt : m < M
    · have hres : minmax_normalize ids (d0 :: ds0)
          = (ids.zip (d0 :: ds0)).map (fun p => (p.1, (p.2 - m) / (M - m))) := by
        simp [minmax_normalize, ← hm, ← hM, hlt]
      have hMm : (0 : ℚ) < M - m := sub_pos.mpr hlt
      have hkey : ∀ i d, (i, d) ∈ ids.zip (d0 :: ds0) →
          dictFind i (minmax_normalize ids (d0 :: ds0)) = some ((d - m) / (M - m)) := by
        intro i d hmem
        rw [hres]
        exact dictFind_eq_of_mem (minmax_keys_nodup hlen hnd (fun x => (x - m) / (M - m)))
          (List.mem_map_of_mem (fun p => (p.1, (p.2 - m) / (M - m))) hmem)
      refine ⟨?_, ?_, ?_, ?_, ?_, ?_⟩
      · intro h; cases h
      · intro i d hmem _; exact hkey i d hmem
      · intro i d hmem _ hd
        rw [hkey i d hmem, hd]
        simp
      · intro i d hmem _ hd
        rw [hkey i d hmem, hd]
        rw [div_self (ne_of_gt hMm)]
      · intro i s hmem
        rw [hres] at hmem
        rcases List.mem_map.mp hmem with ⟨p, hp, hps⟩
        have hds : p.2 ∈ (d0 :: ds0) := (List.of_mem_zip hp).2
        have h1 : m ≤ p.2 := pyMin_le hds
        have h2 : p.2 ≤ M := le_pyMax hds
        have hs : s = (p.2 - m) / (M - m) := by
          have := congrArg Prod.snd hps; simpa using this.symm
        constructor
        · rw [hs]; exact div_nonneg (sub_nonneg.mpr h1) (le_of_lt hMm)
        · rw [hs]
          rw [div_le_one hMm]
          exact sub_le_sub_right h2 m
      · intro _ heq; exact absurd heq (ne_of_lt hlt)
    · have hres : minmax_normalize ids (d0 :: ds0) = ids.map (fun i => (i, 1)) := by
        simp [minmax_normalize, ← hm, ← hM, hlt]
      refine ⟨?_, ?_, ?_, ?_, ?_, ?_⟩
      · intro h; cases h
      · intro i d _ hlt'; exact absurd hlt' hlt
      · intro i d _ hlt'; exact absurd hlt' hlt
      · intro i d _ hlt'; exact absurd hlt' hlt
      · intro i s hmem
        rw [hres] at hmem
        rcases List.mem_map.mp hmem with ⟨j, _, hj⟩
        have hs : s = 1 := by
          have := congrArg Prod.snd hj; simpa using this.symm
        rw [hs]; exact ⟨zero_le_one, le_refl 1⟩
      · intro _ _ i s hmem
        rw [hres] at hmem
        rcases List.mem_map.mp hmem with ⟨j, _, hj⟩
        have := congrArg Prod.snd hj; simpa using this.symm

/-- C1 witness: the theorem instantiated at ids `["a","b","c"]` with distances
`[1, 3, 2]`. -/
theorem minmax_policy1_spec_witness :
    (["a", "b", "c"] : List WineId).length = ([1, 3, 2] : List ℚ).length
    ∧ (["a", "b", "c"] : List WineId).Nodup
    ∧ (([1, 3, 2] : List ℚ) = [] → minmax_normalize ["a", "b", "c"] [1, 3, 2] = [])
    ∧ (∀ i d, (i, d) ∈ (["a", "b", "c"] : List WineId).zip ([1, 3, 2] : List ℚ) →
        pyMin [1, 3, 2] < pyMax [1, 3, 2] →
        dictFind i (minmax_normalize ["a", "b", "c"] [1, 3, 2])
          = some ((d - pyMin [1, 3, 2]) / (pyMax [1, 3, 2] - pyMin [1, 3, 2])))
    ∧ (∀ i d, (i, d) ∈ (["a", "b", "c"] : List WineId).zip ([1, 3, 2] : List ℚ) →
        pyMin [1, 3, 2] < pyMax [1, 3, 2] → d = pyMin [1, 3, 2] →
        dictFind i (minmax_normalize ["a", "b", "c"] [1, 3, 2]) = some 0)
    ∧ (∀ i d, (i, d) ∈ (["a", "b", "c"] : List WineId).zip ([1, 3, 2] : List ℚ) →
        pyMin [1, 3, 2] < pyMax [1, 3, 2] → d = pyMax [1, 3, 2] →
        dictFind i (minmax_normalize ["a", "b", "c"] [1, 3, 2]) = some 1)
    ∧ (∀ i s, (i, s) ∈ minmax_normalize ["a", "b", "c"] [1, 3, 2] → 0 ≤ s ∧ s ≤ 1)
    ∧ (([1, 3, 2] : List ℚ) ≠ [] → pyMin [1, 3, 2] = pyMax [1, 3, 2] →
        ∀ i s, (i, s) ∈ minmax_normalize ["a", "b", "c"] [1, 3, 2] → s = 1) := by
  refine ⟨by decide, by decide, ?_⟩
  have h := minmax_policy1_spec ["a", "b", "c"] [1, 3, 2] (by decide) (by decide)
  exact ⟨h.1, h.2.1, h.2.2.1, h.2.2.2.1, h.2.2.2.2.1, h.2.2.2.2.2⟩

/-- C2 counterexample: `normalize_distances` does not compute the policy-1
min-max normalization. On ids `["a","b"]` with distances `[0, 2]` it returns
`[("a",0),("b",2)]` (raw dot products) while the inline min-max normalization
in `app.py` returns `[("a",0),("b",1)]`. -/
theorem normalize_distances_ne_minmax :
    normalize_distances ["a", "b"] [0, 2] ≠ minmax_normalize ["a", "b"] [0, 2] := by
  norm_num [minmax_normalize, normalize_distances, pyMin, pyMax]

/-- C2 amended: `normalize_distances` (hence the score mapping of
`find_similar_wines`) maps each wine id to its raw dot-product distance,
unchanged — no min-max normalization is applied; the empty input still yields
an empty mapping, which is the only case where it agrees with policy 1 on all
inputs. -/
theorem normalize_distances_raw (wine_ids : List WineId) (distances : List ℚ)
    (hlen : wine_ids.length = distances.length) (hnd : wine_ids.Nodup) :
    (distances = [] → normalize_distances wine_ids distances = [])
    ∧ (∀ i d, (i, d) ∈ wine_ids.zip distances →
        dictFind i (normalize_distances wine_ids distances) = some d)
    ∧ minmax_normalize [] [] = normalize_distances [] [] := by
  refine ⟨?_, ?_, rfl⟩
  · intro h; subst h; rfl
  · intro i d hmem
    cases distances with
    | nil => simp at hmem
    | cons d0 ds0 =>
      have hres : normalize_distances wine_ids (d0 :: ds0) = wine_ids.zip (d0 :: ds0) := rfl
      rw [hres]
      have hfst : (wine_ids.zip (d0 :: ds0)).map Prod.fst = wine_ids :=
        List.map_fst_zip wine_ids (d0 :: ds0) (le_of_eq hlen)
      exact dictFind_eq_of_mem (by rw [hfst]; exact hnd) hmem

/-- C2 amended witness: instantiated at ids `["a","b"]`, distances `[0, 2]`. -/
theorem normalize_distances_raw_witness :
    (["a", "b"] : List WineId).length = ([0, 2] : List ℚ).length
    ∧ (["a", "b"] : List WineId).Nodup
    ∧ dictFind "b" (normalize_distances ["a", "b"] [0, 2]) = some 2 := by
  refine ⟨by decide, by decide, ?_⟩
  exact (normalize_distances_raw ["a", "b"] [0, 2] (by decide) (by decide)).2.1
    "b" 2 (by decide)

/-- C3 counterexample: in `get_wine_recommendations` (the Two-Tower flow) a
neighbor at distance 0 is assigned score 0 — the raw dot product — not 0.5 as
the linear remap (policy 2) gives, and not 3.0 as the sigmoid remap
(policy 3, sigmoid(0)*4+1 = 3) gives. Neither per-pair formula is applied. -/
theorem recommendations_score_not_remapped :
    dictFind "a" (get_wine_recommendations [("a", 0)]).2 = some 0
    ∧ linear_dot_remap 0 = 1 / 2
    ∧ (0 : ℚ) ≠ 1 / 2
    ∧ (0 : ℚ) ≠ 3 := by
  refine ⟨by decide, by norm_num [linear_dot_remap], by norm_num, by norm_num⟩

/-- C3 amended: the Two-Tower recommendation flow applies no distance-to-score
remap at all: for every neighbor list with pairwise-distinct ids, the score
mapping returned by `get_wine_recommendations` assigns each id exactly its raw
dot-product distance. (The transformation to final ratings is documented in
the source as the responsibility of a downstream backend.) -/
theorem recommendations_raw_dot_products (neighbors : List (WineId × ℚ))
    (hnd : (neighbors.map Prod.fst).Nodup) :
    ∀ i d, (i, d) ∈ neighbors →
      dictFind i (get_wine_recommendations neighbors).2 = some d := by
  intro i d hmem
  have hzip : (neighbors.map Prod.fst).zip (neighbors.map Prod.snd) = neighbors :=
    zip_fst_snd neighbors
  cases hn : neighbors.map Prod.snd with
  | nil =>
    have : neighbors = [] := by
      cases neighbors with
      | nil => rfl
      | cons p rest => simp at hn
    subst this; simp at hmem
  | cons d0 ds0 =>
    have hres : (get_wine_recommendations neighbors).2
        = (neighbors.map Prod.fst).zip (neighbors.map Prod.snd) := by
      show normalize_distances (neighbors.map Prod.fst) (neighbors.map Prod.snd)
        = (neighbors.map Prod.fst).zip (neighbors.map Prod.snd)
      rw [hn]
      cases hf : neighbors.map Prod.fst <;> rfl
    rw [hres, hzip]
    exact dictFind_eq_of_mem hnd hmem

/-- C3 amended witness: a single neighbor at dot product 2 keeps score 2. -/
theorem recommendations_raw_dot_products_witness :
    dictFind "a" (get_wine_recommendations [("a", 2)]).2 = some 2 :=
  recommendations_raw_dot_products [("a", 2)] (by decide) "a" 2 (by decide)

/-- C4: the shared contract of the distance-to-score transforms present in the
source (the inline min-max normalization of `app.py` and
`normalize_distances` of `wine_service.py`): for pairwise-distinct input ids
the output mapping's keys are exactly the input ids (no entries invented or
dropped), and the empty input yields the empty mapping. Determinism with no
hidden state holds by construction: both are pure functions of the
(id, distance) lists alone. -/
theorem transform_shared_contract (ids : List WineId) (ds : List ℚ)
    (hlen : ids.length = ds.length) (hnd : ids.Nodup) :
    (minmax_normalize ids ds).map Prod.fst = ids
    ∧ (normalize_distances ids ds).map Prod.fst = ids
    ∧ minmax_normalize [] [] = []
    ∧ normalize_distances [] [] = [] := by
  have hzipfst : (ids.zip ds).map Prod.fst = ids :=
    List.map_fst_zip ids ds (le_of_eq hlen)
  refine ⟨?_, ?_, rfl, rfl⟩
  · cases ds with
    | nil =>
      have : ids = [] := List.length_eq_zero.mp (by simpa using hlen)
      subst this; rfl
    | cons d0 ds0 =>
      show (minmax_normalize ids (d0 :: ds0)).map Prod.fst = ids
      by_cases hlt : pyMin (d0 :: ds0) < pyMax (d0 :: ds0)
      · have hres : minmax_normalize ids (d0 :: ds0)
            = (ids.zip (d0 :: ds0)).map
                (fun p => (p.1, (p.2 - pyMin (d0 :: ds0))
                  / (pyMax (d0 :: ds0) - pyMin (d0 :: ds0)))) := by
          simp [minmax_normalize, hlt]
        rw [hres, List.map_map]
        have : (Prod.fst ∘ fun p : WineId × ℚ =>
            (p.1, (p.2 - pyMin (d0 :: ds0)) / (pyMax (d0 :: ds0) - pyMin (d0 :: ds0))))
            = Prod.fst := by funext p; rfl
        rw [this]
        exact hzipfst
      · have hres : minmax_normalize ids (d0 :: ds0) = ids.map (fun i => (i, 1)) := by
          simp [minmax_normalize, hlt]
        rw [hres, List.map_map]
        have : (Prod.fst ∘ fun i : WineId => (i, (1 : ℚ))) = id := by funext i; rfl
        rw [this, List.map_id]
  · cases ds with
    | nil =>
      have : ids = [] := List.length_eq_zero.mp (by simpa using hlen)
      subst this; rfl
    | cons d0 ds0 => exact hzipfst

/-- C4 witness: instantiated at ids `["x","y"]`, distances `[5, 5]`. -/
theorem transform_shared_contract_witness :
    (["x", "y"] : List WineId).length = ([5, 5] : List ℚ).length
    ∧ (["x", "y"] : List WineId).Nodup
    ∧ (minmax_normalize ["x", "y"] [5, 5]).map Prod.fst = ["x", "y"]
    ∧ (normalize_distances ["x", "y"] [5, 5]).map Prod.fst = ["x", "y"]
    ∧ minmax_normalize [] [] = []
    ∧ normalize_distances [] [] = [] := by
  refine ⟨by decide, by decide, ?_⟩
  have h := transform_shared_contract ["x", "y"] [5, 5] (by decide) (by decide)
  exact ⟨h.1, h.2.1, h.2.2.1, h.2.2.2⟩

/-- The in-memory embedding store of `EmbeddingsService`
(`src/services/embeddings_service.py`): a dict from wine id to embedding. -/
abbrev EmbeddingStore := List (WineId × Embedding)

/-- `EmbeddingsService.get_embedding`: O(1) dict lookup, `None` when absent. -/
def get_embedding (store : EmbeddingStore) (wine_id : WineId) : Option Embedding :=
  dictFind wine_id store

/-- `EmbeddingsService.get_embeddings` (lines 91-116): iterate over the
requested ids in order, keeping each id found in the store with its stored
embedding; missing ids are skipped, never an error. -/
def get_embeddings (store : EmbeddingStore) (wine_ids : List WineId) :
    List (WineId × Embedding) :=
  wine_ids.filterMap (fun i => (get_embedding store i).map (fun e => (i, e)))

/-- `np.dot` on two equal-length vectors (all callers pass equal lengths). -/
def np_dot (u v : Embedding) : ℚ := ((u.zip v).map (fun p => p.1 * p.2)).sum

/-- `WineService.score_wines` (`src/services/wine_service.py` lines 292-355):
with no embeddings service it raises `ValueError("Embeddings service not
initialized")` before any lookup; otherwise it looks up the requested wines
and maps each found wine to the dot product of the user embedding with its
embedding (the early `return {}` when nothing is found is kept as in the
source). -/
def score_wines (embeddings_service : Option EmbeddingStore)
    (user_embedding : Embedding) (wine_ids : List WineId) :
    Except String ScoreMap :=
  match embeddings_service with
  | none => Except.error "Embeddings service not initialized"
  | some store =>
    let wine_embeddings := get_embeddings store wine_ids
    if wine_embeddings.isEmpty then
      Except.ok []
    else
      Except.ok (wine_embeddings.map (fun p => (p.1, np_dot user_embedding p.2)))

theorem get_embeddings_keys (store : EmbeddingStore) :
    ∀ (wine_ids : List WineId),
      (get_embeddings store wine_ids).map Prod.fst
        = wine_ids.filter (fun i => (get_embedding store i).isSome) := by
  intro wine_ids
  induction wine_ids with
  | nil => rfl
  | cons i rest ih =>
    cases h : get_embedding store i with
    | none => simp [get_embeddings, List.filterMap_cons, h, List.filter_cons] at ih ⊢; exact ih
    | some e => simp [get_embeddings, List.filterMap_cons, h, List.filter_cons] at ih ⊢; exact ih

theorem get_embeddings_mem_iff (store : EmbeddingStore) (wine_ids : List WineId)
    (i : WineId) (e : Embedding) :
    (i, e) ∈ get_embeddings store wine_ids
      ↔ i ∈ wine_ids ∧ get_embedding store i = some e := by
  simp only [get_embeddings, List.mem_filterMap, Option.map_eq_some']
  constructor
  · rintro ⟨j, hj, ⟨w, hw, heq⟩⟩
    injection heq with h1 h2
    subst h1
    subst h2
    exact ⟨hj, hw⟩
  · rintro ⟨hi, he⟩
    exact ⟨i, hi, e, he, rfl⟩

/-- C9: `EmbeddingsService.get_embeddings` returns the mapping restricted to
the requested ids present in the store (in request order), each mapped to its
stored embedding; absent ids are omitted with no error (the function is
total); and requesting 3 ids of which only 2 exist yields a mapping of
size 2. -/
theorem get_embeddings_spec (store : EmbeddingStore) (wine_ids : List WineId) :
    (get_embeddings store wine_ids).map Prod.fst
      = wine_ids.filter (fun i => (get_embedding store i).isSome)
    ∧ (∀ i e, (i, e) ∈ get_embeddings store wine_ids →
        i ∈ wine_ids ∧ get_embedding store i = some e)
    ∧ (∀ i e, i ∈ wine_ids → get_embedding store i = some e →
        (i, e) ∈ get_embeddings store wine_ids)
    ∧ (get_embeddings [("1", [1]), ("2", [2])] ["1", "2", "9"]).length = 2 := by
  refine ⟨get_embeddings_keys store wine_ids, ?_, ?_, by decide⟩
  · intro i e h; exact (get_embeddings_mem_iff store wine_ids i e).mp h
  · intro i e hi he; exact (get_embeddings_mem_iff store wine_ids i e).mpr ⟨hi, he⟩

/-- C5: `WineService.score_wines`: with the embeddings service absent it fails
with `ValueError("Embeddings service not initialized")` (a configuration
error, raised before any lookup); with the service present it returns the
mapping whose keys are exactly the requested ids found in the store, each
mapped to the raw dot product of the user embedding with that wine's stored
embedding (no score transform); requested ids missing from the store are
silently omitted; and an empty `wine_ids` list, or one in which no id exists
in the store, yields an empty mapping without error. -/
theorem score_wines_spec (store : EmbeddingStore) (user_embedding : Embedding)
    (wine_ids : List WineId) (hnd : wine_ids.Nodup) :
    score_wines none user_embedding wine_ids
      = Except.error "Embeddings service not initialized"
    ∧ (∃ m, score_wines (some store) user_embedding wine_ids = Except.ok m
        ∧ m.map Prod.fst = wine_ids.filter (fun i => (get_embedding store i).isSome)
        ∧ (∀ i e, i ∈ wine_ids → get_embedding store i = some e →
            dictFind i m = some (np_dot user_embedding e)))
    ∧ (wine_ids = [] → score_wines (some store) user_embedding wine_ids = Except.ok [])
    ∧ ((∀ i ∈ wine_ids, get_embedding store i = none) →
        score_wines (some store) user_embedding wine_ids = Except.ok []) := by
  have hkeys := get_embeddings_keys store wine_ids
  set found := get_embeddings store wine_ids with hfound
  set m := found.map (fun p => (p.1, np_dot user_embedding p.2)) with hmdef
  have hok : score_wines (some store) user_embedding wine_ids = Except.ok m := by
    show (if found.isEmpty then Except.ok ([] : ScoreMap) else Except.ok m)
      = Except.ok m
    cases hf : found.isEmpty
    · simp [hf]
    · have : found = [] := List.isEmpty_iff.mp hf
      simp [hf, hmdef, this]
  refine ⟨rfl, ⟨m, hok, ?_, ?_⟩, ?_, ?_⟩
  · rw [hmdef, List.map_map]
    have : (Prod.fst ∘ fun p : WineId × Embedding => (p.1, np_dot user_embedding p.2))
        = Prod.fst := by funext p; rfl
    rw [this]
    exact hkeys
  · intro i e hi he
    have hmem : (i, e) ∈ found := (get_embeddings_mem_iff store wine_ids i e).mpr ⟨hi, he⟩
    have hmmem : (i, np_dot user_embedding e) ∈ m :=
      List.mem_map_of_mem (fun p => (p.1, np_dot user_embedding p.2)) hmem
    apply dictFind_eq_of_mem _ hmmem
    rw [hmdef, List.map_map]
    have : (Prod.fst ∘ fun p : WineId × Embedding => (p.1, np_dot user_embedding p.2))
        = Prod.fst := by funext p; rfl
    rw [this, hkeys]
    exact hnd.filter _
  · intro h
    subst h
    rfl
  · intro h
    have : found = [] := by
      rw [hfound]
      cases hf : get_embeddings store wine_ids with
      | nil => rfl
      | cons p rest =>
        exfalso
        have hp : p ∈ get_embeddings store wine_ids := by rw [hf]; exact List.mem_cons_self p rest
        obtain ⟨hi, he⟩ :=
          (get_embeddings_mem_iff store wine_ids p.1 p.2).mp (by simpa using hp)
        rw [h p.1 hi] at he
        cases he
    rw [hok, hmdef, this]
    rfl

/-- C5 witness: store `[("1",[1,0]),("2",[0,1])]`, user embedding `[2,3]`,
requested ids `["1","3"]`. -/
theorem score_wines_spec_witness :
    (["1", "3"] : List WineId).Nodup
    ∧ score_wines none [2, 3] ["1", "3"]
        = Except.error "Embeddings service not initialized"
    ∧ (∃ m, score_wines (some [("1", [1, 0]), ("2", [0, 1])]) [2, 3] ["1", "3"]
          = Except.ok m
        ∧ m.map Prod.fst = (["1", "3"] : List WineId).filter
            (fun i => (get_embedding [("1", [1, 0]), ("2", [0, 1])] i).isSome)
        ∧ (∀ i e, i ∈ (["1", "3"] : List WineId) →
            get_embedding [("1", [1, 0]), ("2", [0, 1])] i = some e →
            dictFind i m = some (np_dot [2, 3] e)))
    ∧ ((["1", "3"] : List WineId) = [] →
        score_wines (some [("1", [1, 0]), ("2", [0, 1])]) [2, 3] ["1", "3"]
          = Except.ok [])
    ∧ ((∀ i ∈ (["1", "3"] : List WineId),
          get_embedding [("1", [1, 0]), ("2", [0, 1])] i = none) →
        score_wines (some [("1", [1, 0]), ("2", [0, 1])]) [2, 3] ["1", "3"]
          = Except.ok []) := by
  refine ⟨by decide, ?_⟩
  have h := score_wines_spec [("1", [1, 0]), ("2", [0, 1])] [2, 3] ["1", "3"] (by decide)
  exact ⟨h.1, h.2.1, h.2.2.1, h.2.2.2⟩

/-- The dependency wiring of a `WineService` instance: which optional
collaborators were injected at construction. -/
structure WineServiceState where
  model_service : Option Unit
  embeddings_service : Option EmbeddingStore

/-- `create_app` (`src/app_factory.py` lines 59-62): the service is built as
`WineService(vector_search_client, model_service)` — only two arguments, so
`embeddings_service` keeps its default `None`; no `EmbeddingsService` is
instantiated anywhere in the factory. -/
def create_app_wine_service (model_service : Option Unit) : WineServiceState :=
  { model_service := model_service, embeddings_service := none }

/-- The two kinds of Python exceptions the routes distinguish:
`ValueError` (handled first, mapped to 400) and any other `Exception`
(mapped to 500). -/
inductive PyErr
  | valueError (msg : String)
  | exn (msg : String)

/-- The `POST /wines/score` route (`src/routes/wine_routes.py` lines 96-114)
after the body checks: `generate_user_embedding` is an external call whose
outcome is the `embed_result` argument; a `ValueError` from it or from
`score_wines` is returned as 400, any other exception as 500, success as 200
with the dot-products mapping. -/
def score_wines_route (svc : WineServiceState) (embed_result : Except PyErr Embedding)
    (wine_ids : List WineId) : Nat × Option ScoreMap :=
  match embed_result with
  | Except.error (PyErr.valueError _) => (400, none)
  | Except.error (PyErr.exn _) => (500, none)
  | Except.ok user_embedding =>
    match score_wines svc.embeddings_service user_embedding wine_ids with
    | Except.error _ => (400, none)
    | Except.ok m => (200, some m)

/-- C10: in the application assembled by `create_app`, the `WineService` is
constructed with `embeddings_service = None`, so every invocation of
`score_wines` raises `ValueError("Embeddings service not initialized")`; the
`POST /wines/score` route converts that to a 400 response, and under this
wiring the route can never return a `dot_products` mapping, whatever the
outcome of the external embedding call. -/
theorem create_app_score_wines_always_fails (model_service : Option Unit)
    (user_embedding : Embedding) (wine_ids : List WineId)
    (embed_result : Except PyErr Embedding) :
    (create_app_wine_service model_service).embeddings_service = none
    ∧ score_wines (create_app_wine_service model_service).embeddings_service
        user_embedding wine_ids
        = Except.error "Embeddings service not initialized"
    ∧ score_wines_route (create_app_wine_service model_service)
        (Except.ok user_embedding) wine_ids = (400, none)
    ∧ (score_wines_route (create_app_wine_service model_service)
        embed_result wine_ids).2 = none := by
  refine ⟨rfl, rfl, rfl, ?_⟩
  cases embed_result with
  | error e => cases e <;> rfl
  | ok u => rfl

/-- A JSON value as the schemas here distinguish them: a number or a string. -/
inductive JVal
  | num (q : ℚ)
  | str (s : String)
deriving DecidableEq

/-- A JSON object: keys with values, in insertion order, keys distinct. -/
abbrev JObj := List (String × JVal)

/-- `USER_FEATURE_NAMES` (`src/schemas/user_schema.py`): the canonical ordered
list of the 55 user-preference feature names. -/
def USER_FEATURE_NAMES : List String := [
  "rating_mean", "rating_std", "rating_count", "rating_min", "rating_max",
  "wines_tried", "avg_ratings_per_wine", "coefficient_of_variation",
  "red_wine_preference", "white_wine_preference", "sparkling_wine_preference",
  "rose_wine_preference", "dessert_wine_preference", "dessert_port_wine_preference",
  "weighted_abv_preference", "avg_abv_tried", "high_vs_low_abv_preference",
  "very_light_bodied_preference", "light_bodied_preference", "medium_bodied_preference",
  "full_bodied_preference", "very_full_bodied_preference",
  "low_acidity_preference", "medium_acidity_preference", "high_acidity_preference",
  "country_1_preference", "country_2_preference", "country_3_preference",
  "country_4_preference", "country_5_preference",
  "grape_1_preference", "grape_2_preference", "grape_3_preference",
  "grape_4_preference", "grape_5_preference",
  "complexity_preference", "avg_complexity_tried",
  "reserve_preference", "grand_preference",
  "high_rating_proportion", "low_rating_proportion", "rating_entropy",
  "rating_1_proportion", "rating_2_proportion", "rating_3_proportion",
  "rating_4_proportion", "rating_5_proportion",
  "rating_range", "rating_variance", "unique_ratings_count", "rating_skewness",
  "date_range_days", "avg_days_between_ratings", "rating_trend", "rating_frequency"]

/-- Per-field numeric bounds of `USER_FEATURES_SCHEMA`: fields with
`"minimum": 0`, fields bounded in [0,5], fields bounded in [0,1]; all other
fields are unconstrained numbers. -/
def featureBoundsOk (name : String) (q : ℚ) : Bool :=
  if ["rating_std", "rating_count", "wines_tried", "avg_ratings_per_wine",
      "rating_entropy", "rating_range", "rating_variance", "unique_ratings_count",
      "date_range_days", "avg_days_between_ratings", "rating_frequency"].contains name then
    decide (0 ≤ q)
  else if ["rating_min", "rating_max"].contains name then
    decide (0 ≤ q) && decide (q ≤ 5)
  else if ["high_rating_proportion", "low_rating_proportion", "rating_1_proportion",
      "rating_2_proportion", "rating_3_proportion", "rating_4_proportion",
      "rating_5_proportion"].contains name then
    decide (0 ≤ q) && decide (q ≤ 1)
  else
    true

/-- `jsonschema.validate` against `USER_FEATURES_SCHEMA`
(`src/schemas/user_schema.py` lines 98-183): every key must be one of the 55
canonical names (`additionalProperties: False`), all 55 names are required,
and every value must be a number within its field's bounds. -/
def validate_user_features (data : JObj) : Bool :=
  data.all (fun p => USER_FEATURE_NAMES.contains p.1)
  && USER_FEATURE_NAMES.all (fun n => data.any (fun p => p.1 == n))
  && data.all (fun p =>
      match p.2 with
      | JVal.num q => featureBoundsOk p.1 q
      | JVal.str _ => false)

/-- Python `float(features_dict[name])` after validation: the numeric value
stored under a key (0 is never used: validation guarantees presence). -/
def getNum (data : JObj) (name : String) : ℚ :=
  match dictFind name data with
  | some (JVal.num q) => q
  | _ => 0

/-- `ModelService.preprocess_user_data` (`src/services/model_service.py`
lines 100-135): if the detection key `rating_mean` is present, validate
against the closed 55-feature schema and build the ordered 55-float vector;
otherwise fail with the `ValueError` demanding comprehensive features. -/
def preprocess_user_data (data : JObj) : Except String (List ℚ) :=
  if data.any (fun p => p.1 == "rating_mean") then
    if validate_user_features data then
      Except.ok (USER_FEATURE_NAMES.map (fun n => getNum data n))
    else
      Except.error "User features validation error"
  else
    Except.error (String.append "Two Tower Model requires comprehensive "
      "user features (55 features)")

/-- The `POST /wines` / `POST /wines/recommend` route
(`src/routes/wine_routes.py` lines 43-61) after the body check: the request
flows through `preprocess_user_data` inside `generate_user_embedding`; a
`ValueError` (validation) yields 400, the downstream external model call and
vector search are abstracted as `downstream`, whose failure yields 500 and
whose success is returned as 200 with wines and scores. -/
def get_wine_recommendations_route (data : JObj)
    (downstream : Except String (List WineId × ScoreMap)) :
    Nat × Option (List WineId × ScoreMap) :=
  match preprocess_user_data data with
  | Except.error _ => (400, none)
  | Except.ok _ =>
    match downstream with
    | Except.error _ => (500, none)
    | Except.ok r => (200, some r)

/-- A request body holding all 55 canonical features (each set to 0, which
satisfies every per-field bound). -/
def sample55 : JObj := USER_FEATURE_NAMES.map (fun n => (n, JVal.num 0))

/-- C6: contrary to the spec, a body with all 55 canonical features plus the
documented optional `user_id` field does NOT pass validation:
`USER_FEATURES_SCHEMA` is closed (`additionalProperties: False`) and the
route never strips `user_id` before validating, so the request is rejected
with a 400 whatever the downstream would have returned — while the same body
without `user_id` validates successfully. -/
theorem user_id_rejected_by_closed_schema :
    validate_user_features sample55 = true
    ∧ validate_user_features (sample55 ++ [("user_id", JVal.str "abc")]) = false
    ∧ (∀ downstream,
        get_wine_recommendations_route (sample55 ++ [("user_id", JVal.str "abc")])
          downstream = (400, none)) := by
  refine ⟨by decide, by decide, ?_⟩
  intro downstream
  have h : preprocess_user_data (sample55 ++ [("user_id", JVal.str "abc")])
      = Except.error "User features validation error" := by rfl
  simp [get_wine_recommendations_route, h]

/-- The `enum` of the `type` property in `app.py`'s `SCHEMA` (and in
`SIMPLE_USER_PREFERENCES_SCHEMA`): jsonschema string enums match exactly. -/
def wineTypeEnum : List String := ["Red", "White", "Rose", "Sparkling"]

/-- `jsonschema.validate` against `app.py`'s `SCHEMA` (lines 34-57): `type`
must be a string in the enum (case-sensitive, as jsonschema enums are),
`body` and `dryness` integers in [1,5] (a JSON integer is a number with
denominator 1), `abv` any number; all four fields required; unknown fields
are allowed (the schema sets no `additionalProperties`). -/
def SCHEMA_validate (data : JObj) : Bool :=
  (match dictFind "type" data with
   | some (JVal.str s) => wineTypeEnum.contains s
   | _ => false)
  && (match dictFind "body" data with
      | some (JVal.num q) => q.den == 1 && decide (1 ≤ q) && decide (q ≤ 5)
      | _ => false)
  && (match dictFind "dryness" data with
      | some (JVal.num q) => q.den == 1 && decide (1 ≤ q) && decide (q ≤ 5)
      | _ => false)
  && (match dictFind "abv" data with
      | some (JVal.num _) => true
      | _ => false)

/-- Python `str.lower()` on one ASCII character (all schema enum values are
ASCII). -/
def py_lower_char (c : Char) : Char :=
  if 65 ≤ c.toNat ∧ c.toNat ≤ 90 then Char.ofNat (c.toNat + 32) else c

/-- Python `str.lower()` (restricted to ASCII, which covers every string the
schemas admit). -/
def py_lower (s : String) : String := String.mk (s.data.map py_lower_char)

/-- `data["type"]` as a string (validation guarantees the shape; "" unused). -/
def getStr (data : JObj) (name : String) : String :=
  match dictFind name data with
  | some (JVal.str s) => s
  | _ => ""

/-- `parse_wine_vector` (`src/app.py` lines 59-77): validate against `SCHEMA`,
lower-case the type, derive the three one-hot flags, and return
`[body, abv, is_rose, is_sparkling, is_white, dryness]`; a validation failure
raises `ValueError("Schema validation error: ...")`. -/
def parse_wine_vector (data : JObj) : Except String (List ℚ) :=
  if SCHEMA_validate data then
    let wine_type := py_lower (getStr data "type")
    let is_rose : ℚ := if wine_type = "rose" then 1 else 0
    let is_sparkling : ℚ := if wine_type = "sparkling" then 1 else 0
    let is_white : ℚ := if wine_type = "white" then 1 else 0
    Except.ok [getNum data "body", getNum data "abv",
      is_rose, is_sparkling, is_white, getNum data "dryness"]
  else
    Except.error "Schema validation error"

/-- The simple-wine example from the spec: type Rose, body 3, dryness 2,
abv 12.5. -/
def roseExample : JObj :=
  [("type", JVal.str "Rose"), ("body", JVal.num 3),
   ("dryness", JVal.num 2), ("abv", JVal.num (25 / 2))]

/-- The same example with `body = 6`, out of range. -/
def body6Example : JObj :=
  [("type", JVal.str "Rose"), ("body", JVal.num 6),
   ("dryness", JVal.num 2), ("abv", JVal.num (25 / 2))]

/-- The rose example with the type written in lower case. -/
def roseLowerExample : JObj :=
  [("type", JVal.str "rose"), ("body", JVal.num 3),
   ("dryness", JVal.num 2), ("abv", JVal.num (25 / 2))]

/-- C7: `parse_wine_vector` on any mapping whose `type` is one of the four
canonical names, whose `body` and `dryness` are integers in [1,5] and whose
`abv` is a number, returns `[body, abv, is_rose, is_sparkling, is_white,
dryness]` with the one-hot flags derived from `type` and `Red` mapping to
all-zero flags; the spec example yields `[3, 12.5, 1, 0, 0, 2]`, and
`body = 6` fails with the schema validation error. -/
theorem parse_wine_vector_spec (data : JObj) (ty : String) (b dr a : ℚ)
    (hty : dictFind "type" data = some (JVal.str ty))
    (htyv : ty ∈ wineTypeEnum)
    (hb : dictFind "body" data = some (JVal.num b)) (hbint : b.den = 1)
    (hb1 : 1 ≤ b) (hb5 : b ≤ 5)
    (hd : dictFind "dryness" data = some (JVal.num dr)) (hdint : dr.den = 1)
    (hd1 : 1 ≤ dr) (hd5 : dr ≤ 5)
    (ha : dictFind "abv" data = some (JVal.num a)) :
    parse_wine_vector data = Except.ok [b, a,
      (if ty = "Rose" then 1 else 0),
      (if ty = "Sparkling" then 1 else 0),
      (if ty = "White" then 1 else 0), dr]
    ∧ (ty = "Red" → parse_wine_vector data = Except.ok [b, a, 0, 0, 0, dr])
    ∧ parse_wine_vector roseExample = Except.ok [3, 25 / 2, 1, 0, 0, 2]
    ∧ parse_wine_vector body6Example = Except.error "Schema validation error" := by
  have hval : SCHEMA_validate data = true := by
    simp [SCHEMA_validate, hty, hb, hd, ha, hbint, hdint, hb1, hb5, hd1, hd5]
    simp [wineTypeEnum] at htyv
    rcases htyv with h | h | h | h <;> simp [wineTypeEnum, h]
  have hRed : py_lower "Red" = "red" := by decide
  have hWhite : py_lower "White" = "white" := by decide
  have hRose : py_lower "Rose" = "rose" := by decide
  have hSpark : py_lower "Sparkling" = "sparkling" := by decide
  have hmain : parse_wine_vector data = Except.ok [b, a,
      (if ty = "Rose" then 1 else 0),
      (if ty = "Sparkling" then 1 else 0),
      (if ty = "White" then 1 else 0), dr] := by
    simp [wineTypeEnum] at htyv
    rcases htyv with h | h | h | h <;>
      subst h <;>
      simp [parse_wine_vector, hval, getStr, getNum, hty, hb, hd, ha,
        hRed, hWhite, hRose, hSpark]
  refine ⟨hmain, ?_, by rfl, by rfl⟩
  intro hred
  rw [hmain, hred]
  simp

/-- C7 witness: the theorem instantiated at the spec's Rose example. -/
theorem parse_wine_vector_spec_witness :
    dictFind "type" roseExample = some (JVal.str "Rose")
    ∧ "Rose" ∈ wineTypeEnum
    ∧ dictFind "body" roseExample = some (JVal.num 3)
    ∧ (3 : ℚ).den = 1 ∧ (1 : ℚ) ≤ 3 ∧ (3 : ℚ) ≤ 5
    ∧ dictFind "dryness" roseExample = some (JVal.num 2)
    ∧ (2 : ℚ).den = 1 ∧ (1 : ℚ) ≤ 2 ∧ (2 : ℚ) ≤ 5
    ∧ dictFind "abv" roseExample = some (JVal.num (25 / 2))
    ∧ parse_wine_vector roseExample = Except.ok [3, 25 / 2,
        (if "Rose" = "Rose" then 1 else 0),
        (if "Rose" = "Sparkling" then 1 else 0),
        (if "Rose" = "White" then 1 else 0), 2] := by
  refine ⟨by rfl, by decide, by rfl, by decide, by decide, by decide,
    by rfl, by decide, by decide, by decide, by rfl, ?_⟩
  exact (parse_wine_vector_spec roseExample "Rose" 3 2 (25 / 2)
    (by rfl) (by decide) (by rfl) (by decide) (by decide) (by decide)
    (by rfl) (by decide) (by decide) (by decide) (by rfl)).1

/-- C8 is contradicted by the code: jsonschema's `enum` match is
case-sensitive, so `"rose"` (or any non-canonical capitalization) is rejected
by `SCHEMA` before `parse_wine_vector`'s `.lower()` normalization can run,
while the canonical `"Rose"` succeeds. The dead `.lower()` branch shows the
case-insensitive intent the spec records. -/
theorem lowercase_type_rejected :
    SCHEMA_validate roseLowerExample = false
    ∧ parse_wine_vector roseLowerExample = Except.error "Schema validation error"
    ∧ SCHEMA_validate roseExample = true
    ∧ parse_wine_vector roseExample = Except.ok [3, 25 / 2, 1, 0, 0, 2] := by
  exact ⟨by rfl, by rfl, by rfl, by rfl⟩

end WinesRec
